import Mathlib

/-!
Verification of the TCP transport module (`xudd/lib/tcp.py`): a listening
server actor (the Listener of the spec, class `Server`) and an outbound
client actor (the Dialer of the spec, class `Client`).

The Python code is shallowly embedded: bytes are `List Nat`, sockets are
opaque `Nat` handles, the correlation table `self.requests` is an
association list mirroring a Python dict, and socket side effects are
recorded in an explicit effect log.  Python exceptions become values of
`PyError`; the abstract error names of the spec map onto the concrete
exceptions the code raises, as documented on each definition.
-/

/-- Python exceptions that the embedded code can raise.
`typeErrorUnpackNone` models the `TypeError` Python raises when
`sock, bind = self.requests.get(id)` unpacks the `None` returned by
`dict.get` on an absent key. -/
inductive PyError where
  | typeErrorUnpackNone : PyError
  | keyError : String → PyError
  | valueError : String → PyError
  | runtimeError : String → PyError
deriving DecidableEq, Repr

/-- The error of the spec taxonomy for an operation referencing a
correlation id absent from the table.  In the code this surfaces as the
`TypeError` from unpacking the `None` returned by `self.requests.get`. -/
def UnknownCorrelation : PyError := PyError.typeErrorUnpackNone

/-- The error of the spec taxonomy for a broken connection.  In the code
this is `RuntimeError` with the message `socket connection broken`. -/
def ConnectionBroken : PyError := PyError.runtimeError "socket connection broken"

/-- An accepted connection: the pair `(socket, address)` returned by
`socket.accept()` and stored whole in `self.requests`. -/
structure Conn where
  sock : Nat
  addr : String
deriving DecidableEq, Repr

/-- Bodies of messages the embedded actors emit via `send_message`:
the Server sends `body = \x7b 'request': req \x7d` and the Client sends
`body = \x7b 'chunk': chunk \x7d`. -/
inductive MsgBody where
  | request : Conn → MsgBody
  | chunk : List Nat → MsgBody
deriving DecidableEq, Repr

/-- A message sent through `self.send_message(to=..., directive=...,
body=...)`. -/
structure OutMessage where
  toActor : Option String
  directive : String
  body : MsgBody
deriving DecidableEq, Repr

/-- Socket side effects performed by the Server operations:
`sock.sendall(data)` (which writes the whole buffer) and `sock.close()`. -/
inductive SockEff where
  | sendallBytes : Nat → List Nat → SockEff
  | closeSock : Nat → SockEff
deriving DecidableEq, Repr

/-- Python `dict.get(k)`: the value under the first matching key, or
`none` when the key is absent. -/
def dictGet (d : List (Nat × Conn)) (k : Nat) : Option Conn :=
  (d.find? (fun p => decide (p.1 = k))).map Prod.snd

/-- Python `dict.update(\x7b k: v \x7d)`: overwrite the entry when the key is
present, otherwise append a new entry. -/
def dictUpdate (d : List (Nat × Conn)) (k : Nat) (v : Conn) : List (Nat × Conn) :=
  if (dictGet d k).isSome then
    d.map (fun p => if p.1 = k then (k, v) else p)
  else
    d ++ [(k, v)]

/-- Python `del d[k]`: remove the entry under `k`. -/
def dictDel (d : List (Nat × Conn)) (k : Nat) : List (Nat × Conn) :=
  d.filter (fun p => decide (p.1 ≠ k))

/-- The mutable state of a `Server` actor: the correlation table
`self.requests`, and the interface to the hive.  `nextMsgId` models the
unique-message-id generation of the hive and `sent` the log of messages
delivered through `send_message`.

Modelled from the spec: the hive (the external scheduler, not under
`src/`) provides `send_message` with unique message-id generation; it is
modelled as a monotone counter handing out fresh ids. -/
structure ServerState where
  requests : List (Nat × Conn)
  nextMsgId : Nat
  sent : List OutMessage
deriving DecidableEq, Repr

/-- A freshly constructed `Server`: `self.requests = \x7b\x7d`, nothing sent,
message ids starting at `n0`. -/
def serverInit (n0 : Nat) : ServerState := ⟨[], n0, []⟩

/-- One iteration of the accept loop of `Server.listen`.  The iteration
input models what `select.select` and `socket.accept` yield this turn:
`none` when the listening socket is not readable, `some req` when it is,
in which case exactly one connection `req` is accepted, a
`handle_request` message carrying it is sent to `self.request_handler`,
and `self.requests` is updated with the message id as key. -/
def Server.listenStep (handler : Option String) (st : ServerState)
    (pending : Option Conn) : ServerState :=
  match pending with
  | none => st
  | some req =>
    ⟨dictUpdate st.requests st.nextMsgId req,
     st.nextMsgId + 1,
     st.sent ++ [⟨handler, "handle_request", MsgBody.request req⟩]⟩

/-- The accept loop of `Server.listen`, run over a finite prefix of its
(unbounded) iterations; the loop yields to the scheduler after every
iteration. -/
def Server.listenLoop (handler : Option String) (st : ServerState)
    (iters : List (Option Conn)) : ServerState :=
  iters.foldl (Server.listenStep handler) st

/-- The number of iterations that had a pending connection, i.e. the
number of connections accepted over the run. -/
def countSome (iters : List (Option Conn)) : Nat :=
  (iters.filter Option.isSome).length

/-- The body of the `listen` message: `body.get('port', 8000)` and
`body.get('host', '127.0.0.1')`. -/
structure ListenBody where
  host : Option String
  port : Option Nat
deriving DecidableEq, Repr

/-- Setup effects `Server.listen` performs on the listening socket before
entering the accept loop. -/
inductive SetupEff where
  | reuseaddr : SetupEff
  | nonblocking : SetupEff
  | bindTo : String → Nat → SetupEff
  | backlog : Nat → SetupEff
deriving DecidableEq, Repr

/-- The prologue of `Server.listen`: read `port` and `host` from the
message body with defaults `8000` and `127.0.0.1`, then set
`SO_REUSEADDR`, set non-blocking, bind and listen with backlog 5.  The
prologue has no failure path: `dict.get` with a default never raises. -/
def Server.listenSetup (body : ListenBody) : List SetupEff :=
  let port := body.port.getD 8000
  let host := body.host.getD "127.0.0.1"
  [SetupEff.reuseaddr, SetupEff.nonblocking, SetupEff.bindTo host port,
   SetupEff.backlog 5]

/-- `Server.respond`: look up `message.in_reply_to` in `self.requests`
(raising on an absent id, before any effect), `sock.sendall` the
`response` body field, `sock.close()`, delete the table entry.  Returns
the outcome, the state after, and the socket effects performed. -/
def Server.respond (st : ServerState) (inReplyTo : Nat) (response : List Nat) :
    Except PyError Unit × ServerState × List SockEff :=
  match dictGet st.requests inReplyTo with
  | none => (Except.error UnknownCorrelation, st, [])
  | some c =>
    (Except.ok (),
     ⟨dictDel st.requests inReplyTo, st.nextMsgId, st.sent⟩,
     [SockEff.sendallBytes c.sock response, SockEff.closeSock c.sock])

/-- `Server.send`: same lookup as `Server.respond`, then
`sock.sendall(message.body['response'])`; no close, no table change. -/
def Server.send (st : ServerState) (inReplyTo : Nat) (response : List Nat) :
    Except PyError Unit × ServerState × List SockEff :=
  match dictGet st.requests inReplyTo with
  | none => (Except.error UnknownCorrelation, st, [])
  | some c => (Except.ok (), st, [SockEff.sendallBytes c.sock response])

/-- `Server.close`: same lookup, then `sock.close()`; the table entry is
not removed. -/
def Server.close (st : ServerState) (inReplyTo : Nat) :
    Except PyError Unit × ServerState × List SockEff :=
  match dictGet st.requests inReplyTo with
  | none => (Except.error UnknownCorrelation, st, [])
  | some c => (Except.ok (), st, [SockEff.closeSock c.sock])

/-- Handlers a `Server` registers in `self.message_routing`. -/
inductive ServerHandler where
  | respondH : ServerHandler
  | listenH : ServerHandler
deriving DecidableEq, Repr

/-- The directives `Server.__init__` registers:
`self.message_routing.update(\x7b 'respond': ..., 'listen': ... \x7d)`. -/
def Server.messageRouting : List (String × ServerHandler) :=
  [("respond", ServerHandler.respondH), ("listen", ServerHandler.listenH)]

/-- Dispatch of an incoming directive against the routing the `Server`
registered. -/
def Server.routeDirective (d : String) : Option ServerHandler :=
  (Server.messageRouting.find? (fun p => decide (p.1 = d))).map Prod.snd

/-- Handlers a `Client` registers in `self.message_routing`. -/
inductive ClientHandler where
  | connectH : ClientHandler
  | sendH : ClientHandler
deriving DecidableEq, Repr

/-- The directives `Client.__init__` registers:
`self.message_routing.update(\x7b 'connect': ..., 'send': ... \x7d)`. -/
def Client.messageRouting : List (String × ClientHandler) :=
  [("connect", ClientHandler.connectH), ("send", ClientHandler.sendH)]

/-- Dispatch of an incoming directive against the routing the `Client`
registered. -/
def Client.routeDirective (d : String) : Option ClientHandler :=
  (Client.messageRouting.find? (fun p => decide (p.1 = d))).map Prod.snd

/-- The body of a `connect` message: `host` and `port` are fetched with
`body['...']` (raising `KeyError` when absent), `timeout` and
`chunk_size` with `body.get`. -/
structure ConnectBody where
  host : Option String
  port : Option Nat
  timeout : Option Nat
  chunk_size : Option Nat
deriving DecidableEq, Repr

/-- Socket effects of the `Client.connect` prologue. -/
inductive ClientEff where
  | createConnection : String → Nat → Option Nat → ClientEff
  | setNonblocking : ClientEff
deriving DecidableEq, Repr

/-- The prologue of `Client.connect`: fetch `host` and `port` from the
body inside `try ... except KeyError`.  When either is absent the
handler runs `raise ValueError(template.format(name))`, but the template
references the named field `klass` while `format` receives a positional
argument, so evaluating the format itself raises `KeyError('klass')` and
the `ValueError` is never constructed; no socket operation happens.
When both are present the code reads the options and performs
`socket.create_connection((host, port), timeout)` and
`setblocking(0)`. -/
def Client.connectSetup (body : ConnectBody) :
    Except PyError Unit × List ClientEff :=
  match body.host, body.port with
  | some h, some p =>
    (Except.ok (),
     [ClientEff.createConnection h p body.timeout, ClientEff.setNonblocking])
  | _, _ => (Except.error (PyError.keyError "klass"), [])

/-- The `handle_chunk` message `Client.connect` sends for one received
chunk: `send_message(to=self.chunk_handler, directive='handle_chunk',
body=\x7b 'chunk': chunk \x7d)`. -/
def Client.mkChunkMsg (handler : Option String) (c : List Nat) : OutMessage :=
  ⟨handler, "handle_chunk", MsgBody.chunk c⟩

/-- The poll loop of `Client.connect`, run over the finite trace of
results of its `recv(chunk_size)` calls (one read per readable poll
event; iterations without a readable event perform no read and
contribute nothing).  An empty read raises
`RuntimeError('socket connection broken')`, terminating the loop; a
non-empty chunk is forwarded as a `handle_chunk` message and the loop
continues.  Returns the messages sent and the terminating error, if
any. -/
def Client.pollRun (handler : Option String) :
    List (List Nat) → List OutMessage × Option PyError
  | [] => ([], none)
  | c :: rest =>
    if c = [] then ([], some ConnectionBroken)
    else
      let r := Client.pollRun handler rest
      (Client.mkChunkMsg handler c :: r.1, r.2)

/-- Outcome of the `Client.send` write loop. -/
inductive SendOutcome where
  | done : Nat → SendOutcome
  | broken : Nat → SendOutcome
  | outOfTrace : Nat → SendOutcome
deriving DecidableEq, Repr

/-- The write loop of `Client.send` on a payload of length `len`, driven
by the trace `accepts` of byte counts that successive
`self.socket.send(out[total_sent:])` calls accept: while
`total_sent < length`, the next write is issued; a write accepting `0`
bytes raises `RuntimeError('socket connection broken')` immediately,
otherwise `total_sent` grows by the accepted count.  `outOfTrace` marks
a run whose trace is too short to decide the loop. -/
def Client.sendLoop (len : Nat) : Nat → List Nat → SendOutcome
  | total, [] =>
    if total < len then SendOutcome.outOfTrace total else SendOutcome.done total
  | total, a :: rest =>
    if total < len then
      if a = 0 then SendOutcome.broken total
      else Client.sendLoop len (total + a) rest
    else SendOutcome.done total

/-- A trace of accepted byte counts is valid for payload length `len`
when every count the loop consumes is at most the bytes remaining at
that point, as the OS guarantees for `socket.send`. -/
def validAccepts (len : Nat) : Nat → List Nat → Bool
  | _, [] => true
  | total, a :: rest =>
    if total < len then
      decide (a ≤ len - total) && validAccepts len (total + a) rest
    else true

/-- `message.body['message']`, the payload lookup of `Client.send`:
returns the bytes under the `message` field of the body, `none`
(Python: `KeyError`) when that field is absent. -/
def Client.sendPayload (body : List (String × List Nat)) : Option (List Nat) :=
  (body.find? (fun p => decide (p.1 = "message"))).map Prod.snd

/-!  Helper lemmas about the dict embedding.  -/

/-- After deleting key `k`, `dict.get k` returns `none`. -/
lemma dictGet_dictDel (d : List (Nat × Conn)) (k : Nat) :
    dictGet (dictDel d k) k = none := by
  have h : (dictDel d k).find? (fun p => decide (p.1 = k)) = none := by
    rw [List.find?_eq_none]
    intro p hp
    have hmem := List.mem_filter.mp hp
    simpa using hmem.2
  simp [dictGet, h]

/-- A key strictly larger than every key of the dict is absent. -/
lemma dictGet_eq_none_of_lt (d : List (Nat × Conn)) (k : Nat)
    (h : ∀ q ∈ d, q.1 < k) : dictGet d k = none := by
  have hfind : d.find? (fun p => decide (p.1 = k)) = none := by
    rw [List.find?_eq_none]
    intro p hp
    simpa using Nat.ne_of_lt (h p hp)
  simp [dictGet, hfind]

/-- `dict.update` with an absent key appends the new entry. -/
lemma dictUpdate_append (d : List (Nat × Conn)) (k : Nat) (v : Conn)
    (h : dictGet d k = none) : dictUpdate d k v = d ++ [(k, v)] := by
  simp [dictUpdate, h]

/-- C10: when `respond`, `send` or `close` is invoked with a correlation id
absent from the table, the operation fails with `UnknownCorrelation` (the
lookup raises before any other line runs), the table and the whole state
are unchanged, and no socket effect is performed. -/
theorem server_unknown_id (st : ServerState) (id : Nat) (b : List Nat)
    (h : dictGet st.requests id = none) :
    Server.respond st id b = (Except.error UnknownCorrelation, st, [])
    ∧ Server.send st id b = (Except.error UnknownCorrelation, st, [])
    ∧ Server.close st id = (Except.error UnknownCorrelation, st, []) := by
  refine ⟨?_, ?_, ?_⟩ <;> simp [Server.respond, Server.send, Server.close, h]

/-- Witness for `server_unknown_id` at a concrete state and absent id. -/
theorem server_unknown_id_witness :
    Server.respond (serverInit 0) 9 [1] = (Except.error UnknownCorrelation, serverInit 0, [])
    ∧ Server.send (serverInit 0) 9 [1] = (Except.error UnknownCorrelation, serverInit 0, [])
    ∧ Server.close (serverInit 0) 9 = (Except.error UnknownCorrelation, serverInit 0, []) :=
  server_unknown_id (serverInit 0) 9 [1] (by decide)

/-- C2: for an id present in the table, `respond(id, b)` succeeds,
performs exactly `sendall` of all of `b` followed by `close` on that
connection, and deletes the table entry; on the resulting state any of
`respond`, `send`, `close` on the same id fails with
`UnknownCorrelation`. -/
theorem server_respond_correct (st : ServerState) (id : Nat) (c : Conn)
    (b b2 : List Nat) (h : dictGet st.requests id = some c) :
    Server.respond st id b =
      (Except.ok (), ⟨dictDel st.requests id, st.nextMsgId, st.sent⟩,
       [SockEff.sendallBytes c.sock b, SockEff.closeSock c.sock])
    ∧ dictGet (Server.respond st id b).2.1.requests id = none
    ∧ (Server.respond (Server.respond st id b).2.1 id b2).1 =
        Except.error UnknownCorrelation
    ∧ (Server.send (Server.respond st id b).2.1 id b2).1 =
        Except.error UnknownCorrelation
    ∧ (Server.close (Server.respond st id b).2.1 id).1 =
        Except.error UnknownCorrelation := by
  refine ⟨?_, ?_, ?_, ?_, ?_⟩ <;>
    simp [Server.respond, Server.send, Server.close, h, dictGet_dictDel]

/-- Witness for `server_respond_correct`: a second `respond` on the same
id fails with `UnknownCorrelation`. -/
theorem server_respond_correct_witness :
    (Server.respond (Server.respond ⟨[(7, ⟨3, "peer"⟩)], 8, []⟩ 7 [1, 2]).2.1 7 [3]).1 =
      Except.error UnknownCorrelation :=
  (server_respond_correct ⟨[(7, ⟨3, "peer"⟩)], 8, []⟩ 7 ⟨3, "peer"⟩ [1, 2] [3]
    (by decide)).2.2.1

/-- C6: for an id present in the table, `send(id, b)` performs the same
lookup and `sendall` as `respond` but leaves the state (hence the table
entry) unchanged and closes nothing, and a subsequent `respond(id, b2)`
on the resulting state succeeds and then removes the entry. -/
theorem server_send_frame (st : ServerState) (id : Nat) (c : Conn)
    (b b2 : List Nat) (h : dictGet st.requests id = some c) :
    Server.send st id b = (Except.ok (), st, [SockEff.sendallBytes c.sock b])
    ∧ (Server.respond (Server.send st id b).2.1 id b2).1 = Except.ok ()
    ∧ (Server.respond (Server.send st id b).2.1 id b2).2.2 =
        [SockEff.sendallBytes c.sock b2, SockEff.closeSock c.sock]
    ∧ dictGet (Server.respond (Server.send st id b).2.1 id b2).2.1.requests id = none := by
  refine ⟨?_, ?_, ?_, ?_⟩ <;>
    simp [Server.send, Server.respond, h, dictGet_dictDel]

/-- Witness for `server_send_frame`: after a `send`, `respond` on the
same id still succeeds. -/
theorem server_send_frame_witness :
    (Server.respond (Server.send ⟨[(7, ⟨3, "peer"⟩)], 8, []⟩ 7 [1]).2.1 7 [2]).1 =
      Except.ok () :=
  (server_send_frame ⟨[(7, ⟨3, "peer"⟩)], 8, []⟩ 7 ⟨3, "peer"⟩ [1] [2] (by decide)).2.1

/-- C7: for an id present in the table, `close(id)` succeeds, performs
exactly a `close` on that socket (no write), and leaves the state
unchanged, so the table entry is still present afterwards. -/
theorem server_close_frame (st : ServerState) (id : Nat) (c : Conn)
    (h : dictGet st.requests id = some c) :
    Server.close st id = (Except.ok (), st, [SockEff.closeSock c.sock])
    ∧ dictGet (Server.close st id).2.1.requests id = some c := by
  refine ⟨?_, ?_⟩ <;> simp [Server.close, h]

/-- Witness for `server_close_frame` at a concrete state. -/
theorem server_close_frame_witness :
    Server.close ⟨[(7, ⟨3, "peer"⟩)], 8, []⟩ 7 =
      (Except.ok (), ⟨[(7, ⟨3, "peer"⟩)], 8, []⟩, [SockEff.closeSock 3])
    ∧ dictGet (Server.close ⟨[(7, ⟨3, "peer"⟩)], 8, []⟩ 7).2.1.requests 7 =
        some ⟨3, "peer"⟩ :=
  server_close_frame ⟨[(7, ⟨3, "peer"⟩)], 8, []⟩ 7 ⟨3, "peer"⟩ (by decide)

/-- C9: a `listen` message whose body omits `host`, `port`, or both does
not make the prologue fail: the port defaults to `8000` and the host to
`127.0.0.1`, and the socket is bound and put into listening state on
those defaults. -/
theorem listener_defaults (h : String) (p : Nat) :
    Server.listenSetup ⟨none, none⟩ =
      [SetupEff.reuseaddr, SetupEff.nonblocking,
       SetupEff.bindTo "127.0.0.1" 8000, SetupEff.backlog 5]
    ∧ Server.listenSetup ⟨some h, none⟩ =
      [SetupEff.reuseaddr, SetupEff.nonblocking,
       SetupEff.bindTo h 8000, SetupEff.backlog 5]
    ∧ Server.listenSetup ⟨none, some p⟩ =
      [SetupEff.reuseaddr, SetupEff.nonblocking,
       SetupEff.bindTo "127.0.0.1" p, SetupEff.backlog 5] :=
  ⟨rfl, rfl, rfl⟩

/-- C3: `connect` with a body missing `host` or `port` performs no socket
operation, but the error that escapes is `KeyError('klass')`, raised by
the broken `format` call in the handler, not the intended `ValueError`
(the `InvalidArguments` of the spec), which is never constructed. -/
theorem client_connect_missing_arg :
    Client.connectSetup ⟨some "example.com", none, none, none⟩ =
      (Except.error (PyError.keyError "klass"), [])
    ∧ Client.connectSetup ⟨none, some 80, none, none⟩ =
      (Except.error (PyError.keyError "klass"), [])
    ∧ ∀ msg : String, PyError.keyError "klass" ≠ PyError.valueError msg :=
  ⟨rfl, rfl, fun _ h => PyError.noConfusion h⟩

/-- C8 counterexample: the directive names of the spec table do not match
the code.  `start_listening` is not a registered directive (the Server is
started by `listen`), neither `send` nor `close` is registered in
`Server.__init__`, the accept loop delivers connections under
`handle_request` (not `handle_connection`), and `Client.send` reads its
payload from body field `message`, so a body carrying only `bytes` has no
payload (Python: `KeyError`). -/
theorem directive_names_cex :
    Server.routeDirective "start_listening" = none
    ∧ Server.routeDirective "send" = none
    ∧ Server.routeDirective "close" = none
    ∧ (Server.listenStep (some "h") (serverInit 0) (some ⟨5, "peer"⟩)).sent.map
        OutMessage.directive = ["handle_request"]
    ∧ "handle_request" ≠ "handle_connection"
    ∧ Client.sendPayload [("bytes", [104, 105])] = none := by
  refine ⟨by decide, by decide, by decide, by decide, by decide, by decide⟩

/-- C8 amended: the directives the code actually registers and emits.
The Server registers exactly `respond` and `listen` (its `send` and
`close` methods exist but are not registered), delivers each accepted
connection under `handle_request`, and `Client.send` reads its payload
from the body field `message`. -/
theorem directive_names_amended :
    Server.routeDirective "listen" = some ServerHandler.listenH
    ∧ Server.routeDirective "respond" = some ServerHandler.respondH
    ∧ Server.routeDirective "send" = none
    ∧ Server.routeDirective "close" = none
    ∧ Server.messageRouting.map Prod.fst = ["respond", "listen"]
    ∧ (Server.listenStep (some "h") (serverInit 0) (some ⟨5, "peer"⟩)).sent.map
        OutMessage.directive = ["handle_request"]
    ∧ Client.routeDirective "connect" = some ClientHandler.connectH
    ∧ Client.routeDirective "send" = some ClientHandler.sendH
    ∧ Client.sendPayload [("message", [104, 105])] = some [104, 105]
    ∧ Client.sendPayload [("bytes", [104, 105])] = none := by
  refine ⟨by decide, by decide, by decide, by decide, by decide, by decide,
    by decide, by decide, by decide, by decide⟩

/-- C4: a zero-length `recv` raises `ConnectionBroken`, terminating the
poll loop: the run over a read trace with an empty read sends exactly one
`handle_chunk` message per non-empty read before the empty one, none for
the empty read itself or for anything after it. -/
theorem client_zero_read (handler : Option String) (pre post : List (List Nat))
    (h : ∀ c ∈ pre, c ≠ []) :
    Client.pollRun handler (pre ++ [] :: post) =
      (pre.map (Client.mkChunkMsg handler), some ConnectionBroken) := by
  induction pre with
  | nil => simp [Client.pollRun]
  | cons c rest ih =>
    have hc : c ≠ [] := h c (List.mem_cons_self c rest)
    have hrest : ∀ x ∈ rest, x ≠ [] := fun x hx => h x (List.mem_cons_of_mem c hx)
    simp [Client.pollRun, hc, ih hrest]

/-- Witness for `client_zero_read`: one non-empty read, then the empty
read, then a read that is never reached. -/
theorem client_zero_read_witness :
    Client.pollRun (some "h") ([[104]] ++ [] :: [[1]]) =
      ([Client.mkChunkMsg (some "h") [104]], some ConnectionBroken) :=
  client_zero_read (some "h") [[104]] [[1]] (by decide)

/-- When every accepted count is positive and valid and the trace carries
enough bytes, the write loop finishes with exactly `len` bytes sent. -/
lemma sendLoop_done_of (len : Nat) :
    ∀ (accepts : List Nat) (total : Nat), total ≤ len →
      (∀ a ∈ accepts, 0 < a) → validAccepts len total accepts = true →
      len ≤ total + accepts.sum →
      Client.sendLoop len total accepts = SendOutcome.done len := by
  intro accepts
  induction accepts with
  | nil =>
    intro total h1 _ _ h4
    simp at h4
    have heq : total = len := Nat.le_antisymm h1 h4
    simp [Client.sendLoop, heq]
  | cons a rest ih =>
    intro total h1 hpos hval h4
    by_cases hlt : total < len
    · have ha : 0 < a := hpos a (List.mem_cons_self a rest)
      have hval2 : (decide (a ≤ len - total) && validAccepts len (total + a) rest) = true := by
        simpa [validAccepts, hlt] using hval
      have hstep : a ≤ len - total := by
        have := (Bool.and_eq_true _ _).mp hval2
        simpa using this.1
      have hvrest : validAccepts len (total + a) rest = true :=
        ((Bool.and_eq_true _ _).mp hval2).2
      have h1' : total + a ≤ len := by omega
      have h4' : len ≤ (total + a) + rest.sum := by
        simp [List.sum_cons] at h4
        omega
      have hne : ¬ a = 0 := Nat.pos_iff_ne_zero.mp ha
      have hred : Client.sendLoop len total (a :: rest)
          = Client.sendLoop len (total + a) rest := by
        simp [Client.sendLoop, hlt, hne]
      rw [hred]
      exact ih (total + a) h1'
        (fun b hb => hpos b (List.mem_cons_of_mem a hb)) hvrest h4'
    · have heq : total = len := Nat.le_antisymm h1 (Nat.le_of_not_lt hlt)
      simp [Client.sendLoop, hlt, heq]

/-- If, before the payload is fully sent, a write accepts zero bytes, the
loop raises immediately, having accumulated exactly the bytes the earlier
writes accepted. -/
lemma sendLoop_broken_of (len : Nat) :
    ∀ (pre rest : List Nat) (total : Nat), (∀ a ∈ pre, 0 < a) →
      total + pre.sum < len →
      Client.sendLoop len total (pre ++ 0 :: rest) =
        SendOutcome.broken (total + pre.sum) := by
  intro pre
  induction pre with
  | nil =>
    intro rest total _ hlt
    simp at hlt
    simp [Client.sendLoop, hlt]
  | cons a p ih =>
    intro rest total hpos hlt
    have ha : 0 < a := hpos a (List.mem_cons_self a p)
    have hlt2 : total < len := by
      simp [List.sum_cons] at hlt
      omega
    have hne : ¬ a = 0 := Nat.pos_iff_ne_zero.mp ha
    have hred : Client.sendLoop len total ((a :: p) ++ 0 :: rest)
        = Client.sendLoop len (total + a) (p ++ 0 :: rest) := by
      simp [Client.sendLoop, hlt2, hne]
    have hlt3 : (total + a) + p.sum < len := by
      simp [List.sum_cons] at hlt
      omega
    rw [hred, ih rest (total + a) (fun b hb => hpos b (List.mem_cons_of_mem a hb)) hlt3]
    have : (total + a) + p.sum = total + (a :: p).sum := by
      simp [List.sum_cons]
      omega
    rw [this]

/-- C5: the `Client.send` write loop on a payload of length `len` keeps
issuing writes, accumulating the accepted counts, until the total equals
`len` exactly (never under-sending), provided each write accepts at most
the bytes remaining; and if a write accepts zero bytes while the payload
is not yet fully sent, it raises `ConnectionBroken` at once, having sent
exactly the bytes accepted so far. -/
theorem client_send_loop (len : Nat) (accepts pre rest : List Nat)
    (hpos : ∀ a ∈ accepts, 0 < a)
    (hval : validAccepts len 0 accepts = true)
    (hsum : len ≤ accepts.sum)
    (hpre : ∀ a ∈ pre, 0 < a)
    (hlt : pre.sum < len) :
    Client.sendLoop len 0 accepts = SendOutcome.done len
    ∧ Client.sendLoop len 0 (pre ++ 0 :: rest) = SendOutcome.broken pre.sum := by
  constructor
  · exact sendLoop_done_of len accepts 0 (Nat.zero_le len) hpos hval (by simpa using hsum)
  · have h := sendLoop_broken_of len pre rest 0 hpre (by simpa using hlt)
    simpa using h

/-- Witness for `client_send_loop`: payload of 5 bytes, writes accepting
2 then 3 bytes complete it; a write accepting 0 after 2 bytes breaks. -/
theorem client_send_loop_witness :
    Client.sendLoop 5 0 [2, 3] = SendOutcome.done 5
    ∧ Client.sendLoop 5 0 ([2] ++ 0 :: [7]) = SendOutcome.broken 2 := by
  have h := client_send_loop 5 [2, 3] [2] [7] (by decide) (by decide) (by decide)
    (by decide) (by decide)
  simpa using h

/-- A list with a fresh element appended stays duplicate-free. -/
lemma nodup_append_singleton {l : List Nat} {a : Nat}
    (h1 : l.Nodup) (h2 : a ∉ l) : (l ++ [a]).Nodup := by
  refine List.nodup_append.mpr ⟨h1, List.nodup_singleton a, ?_⟩
  intro b hb hba
  have : b = a := by simpa using hba
  exact h2 (this ▸ hb)

/-- Invariant of the accept loop: starting from a state whose table keys
are all below the next message id and duplicate-free, a run of the loop
grows the table and the sent log by exactly one entry per accepted
connection, keeps every key below the (new) next message id, keeps the
keys duplicate-free, and every newly sent message goes to the configured
handler under the `handle_request` directive. -/
lemma listenLoop_inv (handler : Option String) (iters : List (Option Conn)) :
    ∀ st : ServerState,
      (∀ q ∈ st.requests, q.1 < st.nextMsgId) →
      (st.requests.map Prod.fst).Nodup →
      ((Server.listenLoop handler st iters).requests.length
          = st.requests.length + countSome iters)
      ∧ ((Server.listenLoop handler st iters).sent.length
          = st.sent.length + countSome iters)
      ∧ (∀ q ∈ (Server.listenLoop handler st iters).requests,
          q.1 < (Server.listenLoop handler st iters).nextMsgId)
      ∧ ((Server.listenLoop handler st iters).requests.map Prod.fst).Nodup
      ∧ (∀ m ∈ (Server.listenLoop handler st iters).sent,
          m ∈ st.sent ∨ (m.toActor = handler ∧ m.directive = "handle_request")) := by
  induction iters with
  | nil =>
    intro st h1 h2
    refine ⟨by simp [Server.listenLoop, countSome], by simp [Server.listenLoop, countSome],
      ?_, ?_, ?_⟩
    · simpa [Server.listenLoop] using h1
    · simpa [Server.listenLoop] using h2
    · intro m hm
      exact Or.inl (by simpa [Server.listenLoop] using hm)
  | cons x rest ih =>
    intro st h1 h2
    match x with
    | none =>
      have hstep : Server.listenLoop handler st (none :: rest)
          = Server.listenLoop handler st rest := rfl
      have hcount : countSome (none :: rest) = countSome rest := by
        simp [countSome]
      rw [hstep, hcount]
      exact ih st h1 h2
    | some req =>
      have habsent : dictGet st.requests st.nextMsgId = none :=
        dictGet_eq_none_of_lt st.requests st.nextMsgId h1
      have hupd : dictUpdate st.requests st.nextMsgId req
          = st.requests ++ [(st.nextMsgId, req)] :=
        dictUpdate_append st.requests st.nextMsgId req habsent
      have hstep : Server.listenLoop handler st (some req :: rest)
          = Server.listenLoop handler
              ⟨st.requests ++ [(st.nextMsgId, req)], st.nextMsgId + 1,
               st.sent ++ [⟨handler, "handle_request", MsgBody.request req⟩]⟩ rest := by
        simp [Server.listenLoop, Server.listenStep, hupd]
      have hcount : countSome (some req :: rest) = countSome rest + 1 := by
        simp [countSome, List.filter]
      have h1' : ∀ q ∈ st.requests ++ [(st.nextMsgId, req)], q.1 < st.nextMsgId + 1 := by
        intro q hq
        rcases List.mem_append.mp hq with hq | hq
        · exact Nat.lt_succ_of_lt (h1 q hq)
        · have : q = (st.nextMsgId, req) := by simpa using hq
          rw [this]
          exact Nat.lt_succ_self _
      have hnotin : st.nextMsgId ∉ st.requests.map Prod.fst := by
        intro hmem
        rcases List.mem_map.mp hmem with ⟨q, hq, hqe⟩
        exact absurd (hqe ▸ h1 q hq) (Nat.lt_irrefl _)
      have h2' : ((st.requests ++ [(st.nextMsgId, req)]).map Prod.fst).Nodup := by
        rw [List.map_append]
        exact nodup_append_singleton h2 hnotin
      have hres := ih ⟨st.requests ++ [(st.nextMsgId, req)], st.nextMsgId + 1,
        st.sent ++ [⟨handler, "handle_request", MsgBody.request req⟩]⟩ h1' h2'
      rw [hstep, hcount]
      refine ⟨?_, ?_, hres.2.2.1, hres.2.2.2.1, ?_⟩
      · rw [hres.1]
        simp
        omega
      · rw [hres.2.1]
        simp
        omega
      · intro m hm
        rcases hres.2.2.2.2 m hm with hmem | hP
        · rcases List.mem_append.mp hmem with hmem | hmem
          · exact Or.inl hmem
          · have : m = ⟨handler, "handle_request", MsgBody.request req⟩ := by
              simpa using hmem
            exact Or.inr (by rw [this]; exact ⟨rfl, rfl⟩)
        · exact Or.inr hP

/-- C1: running the accept loop from a fresh Server over any sequence of
iterations with `N` accepted connections sends exactly `N` messages, each
to the configured handler under the `handle_request` directive, and
leaves the correlation table with exactly `N` live entries keyed by
pairwise distinct correlation ids. -/
theorem listener_accept_loop (handler : Option String) (n0 : Nat)
    (iters : List (Option Conn)) :
    ((Server.listenLoop handler (serverInit n0) iters).sent.length = countSome iters)
    ∧ (∀ m ∈ (Server.listenLoop handler (serverInit n0) iters).sent,
        m.toActor = handler ∧ m.directive = "handle_request")
    ∧ ((Server.listenLoop handler (serverInit n0) iters).requests.length = countSome iters)
    ∧ ((Server.listenLoop handler (serverInit n0) iters).requests.map Prod.fst).Nodup := by
  have h := listenLoop_inv handler iters (serverInit n0)
    (by simp [serverInit]) (by simp [serverInit])
  refine ⟨by simpa [serverInit] using h.2.1, ?_, by simpa [serverInit] using h.1,
    h.2.2.2.1⟩
  intro m hm
  rcases h.2.2.2.2 m hm with hmem | hP
  · exact absurd hmem (by simp [serverInit])
  · exact hP
